import Mathlib

/-!
Shallow embedding of the imgc core (plugin manager, processor chain,
plugin watcher) and proofs about the claims of its specification.

The definitions below are translated from:
  * `src/imgc/processor_chain.py` (`ProcessorChain.process_file`,
    `ProcessorChain._execute_processor`, `ProcessorChain.get_stats`),
  * `src/imgc/plugin_manager.py` (`PluginManager.discover_plugins`,
    `PluginManager.get_processors_for_file`, `PluginManager.get_all_processors`),
  * `src/imgc/plugin_watcher.py` (`PluginFileHandler._should_process`,
    `PluginFileHandler._wait_for_stable_file`, `PluginWatcher.start_watching`),
  * `src/imgc/plugin_api.py` (`ProcessorResult`, `ProcessorError.__str__`).

Python floats are modelled as rationals, Python dict values appearing in
chain contexts as a small `Val` type, and Python dicts keyed by strings as
association lists (`Ctx`) with `dict.update` semantics.
-/

namespace Imgc

/-- A value stored in a chain context (string or numeric). -/
inductive Val where
  | vStr (s : String)
  | vNum (q : ℚ)
  deriving DecidableEq

/-- A Python `dict[str, value]` as an association list (first match wins). -/
abbrev Ctx := List (String × Val)

/-- Setting one key of a dict: replace in place if present, else append. -/
def setKey : Ctx → String → Val → Ctx
  | [], k, v => [(k, v)]
  | (k', v') :: rest, k, v =>
      if k' = k then (k', v) :: rest else (k', v') :: setKey rest k v

/-- Python `base.update(upd)`: keys of `upd` overwrite keys of `base`
in order, later keys of `upd` overwriting earlier ones. -/
def ctxUpdate (base upd : Ctx) : Ctx :=
  upd.foldl (fun b p => setKey b p.1 p.2) base

/-- Model of `ProcessorResult` from `plugin_api.py` (the `stats or {}` /
`context or {}` normalisation in `__init__` is the identity on this
model, where an absent mapping is the empty list). -/
structure ProcessorResult where
  success : Bool := true
  message : String := ""
  stats : Ctx := []
  context : Ctx := []
  deriving DecidableEq

/-- A mapping-shaped value returned by a processor's `process`: the four
keys `_execute_processor` reads from it, each possibly absent. -/
structure PyDict where
  success : Option Bool := none
  message : Option String := none
  stats : Option Ctx := none
  context : Option Ctx := none
  deriving DecidableEq

/-- The shape of a value returned by `process`: `None`, a mapping, a
proper `ProcessorResult`, or anything else (carrying its truthiness and
its `str(...)` representation). -/
inductive PyValue where
  | pyNone
  | pyDict (d : PyDict)
  | pyResult (r : ProcessorResult)
  | pyOther (truthy : Bool) (strRepr : String)
  deriving DecidableEq

/-- The normalisation done inside `target` in
`ProcessorChain._execute_processor` (processor_chain.py lines 220-235):
a non-`ProcessorResult` return is coerced; a mapping field-by-field with
defaults, anything else to success with `str(result) if result else
"Processed"` as the message.  Note that `None` is falsy and not a dict,
so it is coerced to a successful result with message `"Processed"`;
consequently the later `result is None` check at line 258 never fires
once `target` has completed. -/
def normalizeReturn : PyValue → ProcessorResult
  | .pyResult r => r
  | .pyDict d =>
      { success := d.success.getD true
        message := d.message.getD ""
        stats := d.stats.getD []
        context := d.context.getD [] }
  | .pyNone =>
      { success := true, message := "Processed", stats := [], context := [] }
  | .pyOther truthy s =>
      { success := true, message := if truthy then s else "Processed"
        stats := [], context := [] }

/-- What one `process(path, context)` call does: return a value, raise an
exception with the given `str(e)`, or run past the join timeout. -/
inductive ProcBehavior where
  | returns (v : PyValue)
  | raises (msg : String)
  | hangs
  deriving DecidableEq

/-- A loaded processor (`FileProcessor` from plugin_api.py) as the chain
sees it.  `canProcess` returns `none` when `can_process` raises (the
manager treats that as "does not apply"). -/
structure FileProcessor where
  name : String
  version : String := "1.0.0"
  priority : Int := 100
  canProcess : String → Option Bool
  behavior : String → Ctx → ProcBehavior

/-- Model of `ProcessorError.__str__` from plugin_api.py: `"[name] (path) message"`
with the bracketed parts present only when nonempty, joined by single
spaces (written here as direct concatenation, which yields the same
string as `" ".join(parts)`). -/
def processorErrorStr (procName path msg : String) : String :=
  (if procName ≠ "" then "[" ++ procName ++ "] " else "") ++
    ((if path ≠ "" then "(" ++ path ++ ") " else "") ++ msg)

/-- The message of the `ProcessorTimeout` raised in `_execute_processor`. -/
def timeoutMessage (timeout : ℚ) : String :=
  "Processor timed out after " ++ toString timeout ++ " seconds"

/-- Outcome of `_execute_processor` as observed by `process_file`:
a returned `ProcessorResult`, a raised `ProcessorError` (carrying
`str(exception)`), or a raised `ProcessorTimeout`. -/
inductive ExecOutcome where
  | ok (r : ProcessorResult)
  | procError (msg : String)
  | procTimeout (msg : String)
  deriving DecidableEq

/-- Model of `ProcessorChain._execute_processor` (processor_chain.py 214-261):
run `process` in a thread; a hang becomes `ProcessorTimeout`, a raised
exception becomes `ProcessorError(str(exception), name, path)`, and a
returned value is normalised by `target`.  The `result is None` branch
at line 258 is unreachable: `target` coerces a `None` return before it. -/
def executeProcessor (timeout : ℚ) (p : FileProcessor) (path : String)
    (context : Ctx) : ExecOutcome :=
  match p.behavior path context with
  | .hangs => .procTimeout (timeoutMessage timeout)
  | .raises msg => .procError msg
  | .returns v => .ok (normalizeReturn v)

/-- The `"result"` sub-dict of one entry of `results` in `process_file`:
`to_dict()` of the processor's result on success, or the inline dicts of
the two `except` branches (which carry a `timeout` / `error` marker and
omit `stats` / `context`). -/
structure EntryResult where
  success : Bool
  message : String
  stats : Option Ctx := none
  context : Option Ctx := none
  timeout : Bool := false
  error : Bool := false
  deriving DecidableEq

/-- One entry of the `results` list built by `process_file`. -/
structure RunEntry where
  processor : String
  processorVersion : String
  result : EntryResult
  success : Bool
  order : Nat
  deriving DecidableEq

/-- One iteration of the processor loop in `process_file`
(processor_chain.py 107-173): the appended entry, the shared context
afterwards, and the contribution to `overall_success`. -/
def chainStep (timeout : ℚ) (path : String) (p : FileProcessor) (i : Nat)
    (context : Ctx) : RunEntry × Ctx × Bool :=
  match executeProcessor timeout p path context with
  | .ok r =>
      ({ processor := p.name, processorVersion := p.version,
         result := { success := r.success, message := r.message,
                     stats := some r.stats, context := some r.context },
         success := r.success, order := i + 1 },
       if r.success ∧ r.context ≠ [] then ctxUpdate context r.context else context,
       r.success)
  | .procTimeout msg =>
      ({ processor := p.name, processorVersion := p.version,
         result := { success := false,
                     message := processorErrorStr p.name path msg,
                     timeout := true },
         success := false, order := i + 1 },
       context, false)
  | .procError msg =>
      ({ processor := p.name, processorVersion := p.version,
         result := { success := false,
                     message := processorErrorStr p.name path msg,
                     error := true },
         success := false, order := i + 1 },
       context, false)

/-- The processor loop of `process_file`, started at index `i` with the
current shared context: the `results` list, the final shared context and
`overall_success`. -/
def runChain (timeout : ℚ) (path : String) :
    List FileProcessor → Nat → Ctx → List RunEntry × Ctx × Bool
  | [], _, context => ([], context, true)
  | p :: ps, i, context =>
      let step := chainStep timeout path p i context
      let rest := runChain timeout path ps (i + 1) step.2.1
      (step.1 :: rest.1, rest.2.1, step.2.2 && rest.2.2)

/-- The relation `list.sort(key=lambda p: p.priority)` sorts by. -/
def procLE (a b : FileProcessor) : Prop := a.priority ≤ b.priority

instance : DecidableRel procLE :=
  fun a b => inferInstanceAs (Decidable (a.priority ≤ b.priority))

instance : IsTotal FileProcessor procLE := ⟨fun a b => Int.le_total a.priority b.priority⟩

instance : IsTrans FileProcessor procLE := ⟨fun _ _ _ => Int.le_trans⟩

instance : IsRefl FileProcessor procLE := ⟨fun a => Int.le_refl a.priority⟩

/-- Python's `list.sort(key=lambda p: p.priority)` is a stable sort by
ascending priority; modelled by stable insertion sort. -/
def sortByPriority (l : List FileProcessor) : List FileProcessor :=
  List.insertionSort procLE l

/-- The final step of `PluginManager.discover_plugins`
(plugin_manager.py 116): the processors accumulated in discovery order
are stable-sorted by priority in place. -/
def discoverPlugins (discovered : List FileProcessor) : List FileProcessor :=
  sortByPriority discovered

/-- Model of `PluginManager.get_processors_for_file` (plugin_manager.py 264-287):
keep the processors whose `can_process` returns truthily (an exception
counts as not applicable), then sort by priority. -/
def getProcessorsForFile (processors : List FileProcessor) (path : String) :
    List FileProcessor :=
  sortByPriority (processors.filter (fun p => p.canProcess path = some true))

/-- The processor list `process_file` actually runs: registry lookup,
optionally narrowed by `processor_filter` (processor_chain.py 80-83). -/
def appliedChain (processors : List FileProcessor)
    (pfilter : Option (FileProcessor → Bool)) (path : String) :
    List FileProcessor :=
  match pfilter with
  | some f => (getProcessorsForFile processors path).filter f
  | none => getProcessorsForFile processors path

/-- The dict returned by `process_file`.  The zero-processor return at
processor_chain.py 87-94 omits the `successful_processors` and
`failed_processors` keys, hence the `Option`. -/
structure ChainRecord where
  filePath : String
  processorsRun : Nat
  successfulProcessors : Option Nat := none
  failedProcessors : Option Nat := none
  results : List RunEntry
  success : Bool
  message : String
  deriving DecidableEq

/-- The context seeded at processor_chain.py line 103. -/
def seedContext (path : String) (startTime : ℚ) : Ctx :=
  [("original_path", Val.vStr path), ("chain_start_time", Val.vNum startTime)]

/-- Model of `ProcessorChain.process_file` (processor_chain.py 57-189). -/
def processFile (processors : List FileProcessor)
    (pfilter : Option (FileProcessor → Bool)) (timeout : ℚ) (path : String)
    (startTime : ℚ) : ChainRecord :=
  let ps := appliedChain processors pfilter path
  if ps.isEmpty then
    { filePath := path, processorsRun := 0, results := [], success := true,
      message := "No applicable processors found" }
  else
    let run := runChain timeout path ps 0 (seedContext path startTime)
    let successCount := (run.1.filter (·.success)).length
    { filePath := path
      processorsRun := ps.length
      successfulProcessors := some successCount
      failedProcessors := some (ps.length - successCount)
      results := run.1
      success := run.2.2
      message := "Processed through " ++ toString ps.length ++ " processors" }

/-! ### Stability wait (`PluginFileHandler._wait_for_stable_file`)

The loop is driven by an abstract poll trace: `poll t` is the size
`file_path.stat().st_size` would report on attempt `t`, with `none`
meaning `stat` raises `FileNotFoundError`/`OSError`; `stop t` is the
state of the stop event at the start of attempt `t`.  `fuel` counts the
remaining iterations of `for attempt in range(max_attempts)`; it equals
`maxAttempts - attempt` on every call reached from `waitForStableFile`. -/

/-- The body of the `for attempt in range(max_attempts)` loop in
`_wait_for_stable_file` (plugin_watcher.py 195-217), plus the
`return False` after the loop (fuel exhausted). -/
def stableLoop (stop : Nat → Bool) (poll : Nat → Option Nat)
    (maxAttempts : Nat) : Nat → Option Nat → Nat → Bool
  | 0, _, _ => false
  | fuel + 1, prevSize, attempt =>
      if stop attempt then false
      else
        match poll attempt with
        | some current =>
            if prevSize = some current then true
            else stableLoop stop poll maxAttempts fuel (some current) (attempt + 1)
        | none =>
            if attempt < maxAttempts - 1 then
              stableLoop stop poll maxAttempts fuel prevSize (attempt + 1)
            else false

/-- Model of `PluginFileHandler._wait_for_stable_file` (plugin_watcher.py
179-222): short-circuit to stable when `stable_seconds <= 0`, otherwise
run the polling loop with `max_attempts` iterations. -/
def waitForStableFile (stableSeconds : ℚ) (stop : Nat → Bool)
    (poll : Nat → Option Nat) (maxAttempts : Nat) : Bool :=
  if stableSeconds ≤ 0 then true
  else stableLoop stop poll maxAttempts maxAttempts none 0

/-! ### Cooldown filter (`PluginFileHandler._should_process`) -/

/-- Model of `PluginFileHandler._should_process` (plugin_watcher.py 80-91) for one
event: `processed` is `self._processed` (resolved path -> timestamp of
the last accepted event), `key` the event's resolved path, `now` the
value of `time.time()`.  Returns the decision and the updated map.
The guard mirrors Python's `if last and (now - last) < self.cooldown`:
`last` must be truthy, i.e. present and nonzero. -/
def shouldProcess (cooldown : ℚ) (processed : String → Option ℚ)
    (key : String) (now : ℚ) : Bool × (String → Option ℚ) :=
  match processed key with
  | some last =>
      if last ≠ 0 ∧ now - last < cooldown then (false, processed)
      else (true, fun k => if k = key then some now else processed k)
  | none => (true, fun k => if k = key then some now else processed k)

/-- A sequence of events on the same resolved path, folded through
`_should_process`: the per-event decisions and the final map. -/
def runCooldown (cooldown : ℚ) (key : String) :
    (String → Option ℚ) → List ℚ → List (ℚ × Bool) × (String → Option ℚ)
  | s, [] => ([], s)
  | s, t :: ts =>
      let step := shouldProcess cooldown s key t
      let rest := runCooldown cooldown key step.2 ts
      ((t, step.1) :: rest.1, rest.2)

/-- The timestamps of the accepted events of a cooldown trace. -/
def acceptedTimes (trace : List (ℚ × Bool)) : List ℚ :=
  (trace.filter (·.2)).map (·.1)

/-! ### Startup ordering (`PluginWatcher.start_watching`) -/

/-- The externally observable stages of `PluginWatcher.start_watching`. -/
inductive WatchStep where
  | bulkProcess (workers : Nat)
  | observerStart
  | watchLoop
  deriving DecidableEq

/-- Model of `PluginWatcher.start_watching` (plugin_watcher.py 438-464) as the
sequence of stages it performs: when `process_existing` is set it first
runs `process_existing_files(workers)` to completion, then calls
`self.observer.start()`, then enters the wait loop. -/
def startWatching (processExisting : Bool) (workers : Nat) : List WatchStep :=
  (if processExisting then [WatchStep.bulkProcess workers] else []) ++
    [WatchStep.observerStart, WatchStep.watchLoop]

/-! ### Detached copies (`get_stats` / `get_all_processors`)

Python aliasing is made observable with a tiny object store: addresses
are naturals, the chain's `_stats` dict (resp. the manager's
`processors` list) lives at an existing address, and `.copy()` allocates
a fresh address holding the same contents. -/

/-- The `_stats` dict of `ProcessorChain` (processor_chain.py 49-55). -/
structure ChainStats where
  filesProcessed : Nat := 0
  totalProcessorsRun : Nat := 0
  successfulProcessors : Nat := 0
  failedProcessors : Nat := 0
  timeouts : Nat := 0
  deriving DecidableEq

/-- A store of mutable objects of type `α` with a fresh-address counter. -/
structure Heap (α : Type) where
  next : Nat
  store : Nat → α

/-- Python's `.copy()`: allocate a fresh object holding the same
contents as the object at `src`, and return its address. -/
def Heap.copyOut {α : Type} (h : Heap α) (src : Nat) : Nat × Heap α :=
  (h.next,
   { next := h.next + 1,
     store := fun a => if a = h.next then h.store src else h.store a })

/-- Mutate the object at `addr` in place. -/
def Heap.writeAt {α : Type} (h : Heap α) (addr : Nat) (v : α) : Heap α :=
  { h with store := fun a => if a = addr then v else h.store a }

/-- Model of `ProcessorChain.get_stats` (processor_chain.py 307-309):
`return self._stats.copy()`. -/
def getStats (h : Heap ChainStats) (statsRef : Nat) : Nat × Heap ChainStats :=
  h.copyOut statsRef

/-- Model of `PluginManager.get_all_processors` (plugin_manager.py 296-298):
`return self.processors.copy()`. -/
def getAllProcessors (h : Heap (List FileProcessor)) (procsRef : Nat) :
    Nat × Heap (List FileProcessor) :=
  h.copyOut procsRef

/-! ### Derived notions used by the theorems -/

/-- How one recorded entry changes the shared chain context in
`process_file`: a successful entry's result context is merged in
(`context.update(result.context)` at line 128), a failed entry
contributes nothing. -/
def mergeStep (c : Ctx) (e : RunEntry) : Ctx :=
  if e.success then
    match e.result.context with
    | some rc => ctxUpdate c rc
    | none => c
  else c

/-- The shared context after merging a list of recorded entries. -/
def mergedCtx (seed : Ctx) (es : List RunEntry) : Ctx :=
  es.foldl mergeStep seed

/-! ### Concrete processors used as witnesses -/

/-- A processor whose `process` returns `None`. -/
def noneReturningProc : FileProcessor :=
  { name := "NoneProc", canProcess := fun _ => some true,
    behavior := fun _ _ => .returns .pyNone }

/-- A processor whose `process` raises `ValueError("boom")`. -/
def raisingProc : FileProcessor :=
  { name := "Raiser", canProcess := fun _ => some true,
    behavior := fun _ _ => .raises "boom" }

/-- A processor whose `process` returns a plain successful result. -/
def okProc : FileProcessor :=
  { name := "Ok", canProcess := fun _ => some true,
    behavior := fun _ _ => .returns (.pyResult { message := "fine" }) }

/-- An always-succeeding processor with priority 10. -/
def procA : FileProcessor :=
  { name := "A", priority := 10, canProcess := fun _ => some true,
    behavior := fun _ _ => .returns (.pyResult { message := "a" }) }

/-- An always-succeeding processor with priority 200. -/
def procB : FileProcessor :=
  { name := "B", priority := 200, canProcess := fun _ => some true,
    behavior := fun _ _ => .returns (.pyResult { message := "b" }) }

/-- A processor that succeeds and contributes `a_ran` to the context. -/
def ctxProc : FileProcessor :=
  { name := "CtxProc", canProcess := fun _ => some true,
    behavior := fun _ _ =>
      .returns (.pyResult { message := "ctx", context := [("a_ran", Val.vNum 1)] }) }

/-! ## Helper lemmas -/

theorem ctxUpdate_nil (c : Ctx) : ctxUpdate c [] = c := rfl

theorem chainStep_success (t : ℚ) (path : String) (p : FileProcessor) (i : Nat)
    (c : Ctx) : (chainStep t path p i c).2.2 = (chainStep t path p i c).1.success := by
  cases h : executeProcessor t p path c <;> simp [chainStep, h]

theorem chainStep_processor (t : ℚ) (path : String) (p : FileProcessor) (i : Nat)
    (c : Ctx) : (chainStep t path p i c).1.processor = p.name := by
  cases h : executeProcessor t p path c <;> simp [chainStep, h]

theorem chainStep_ctx (t : ℚ) (path : String) (p : FileProcessor) (i : Nat)
    (c : Ctx) : (chainStep t path p i c).2.1 = mergeStep c (chainStep t path p i c).1 := by
  cases h : executeProcessor t p path c with
  | ok r =>
      by_cases hs : r.success
      · by_cases hc : r.context = [] <;>
          simp [chainStep, h, mergeStep, hs, hc, ctxUpdate_nil]
      · simp [chainStep, h, mergeStep, hs]
  | procError m => simp [chainStep, h, mergeStep]
  | procTimeout m => simp [chainStep, h, mergeStep]

theorem runChain_length (t : ℚ) (path : String) :
    ∀ (ps : List FileProcessor) (i : Nat) (c : Ctx),
      (runChain t path ps i c).1.length = ps.length
  | [], _, _ => rfl
  | p :: ps, i, c => by
      simp [runChain, runChain_length t path ps (i + 1) ((chainStep t path p i c).2.1)]

theorem runChain_success_all (t : ℚ) (path : String) :
    ∀ (ps : List FileProcessor) (i : Nat) (c : Ctx),
      (runChain t path ps i c).2.2 = (runChain t path ps i c).1.all (·.success)
  | [], _, _ => rfl
  | p :: ps, i, c => by
      simp [runChain, List.all_cons, chainStep_success,
        runChain_success_all t path ps (i + 1) ((chainStep t path p i c).2.1)]

theorem runChain_map_processor (t : ℚ) (path : String) :
    ∀ (ps : List FileProcessor) (i : Nat) (c : Ctx),
      (runChain t path ps i c).1.map (·.processor) = ps.map (·.name)
  | [], _, _ => rfl
  | p :: ps, i, c => by
      simp [runChain, chainStep_processor,
        runChain_map_processor t path ps (i + 1) ((chainStep t path p i c).2.1)]

theorem runChain_get (t : ℚ) (path : String) :
    ∀ (ps : List FileProcessor) (i : Nat) (c : Ctx) (k : Nat) (hk : k < ps.length),
      (runChain t path ps i c).1[k]? =
        some (chainStep t path (ps.get ⟨k, hk⟩) (i + k)
          (mergedCtx c ((runChain t path ps i c).1.take k))).1
  | [], _, _, k, hk => absurd hk (by simp)
  | p :: ps, i, c, 0, _ => by
      simp [runChain, mergedCtx]
  | p :: ps, i, c, k + 1, hk => by
      have ih := runChain_get t path ps (i + 1) ((chainStep t path p i c).2.1) k
        (by simpa using hk)
      simp only [runChain, List.getElem?_cons_succ, List.take_succ_cons, List.get_cons_succ]
      rw [ih]
      have hm : mergedCtx c ((chainStep t path p i c).1 ::
          (runChain t path ps (i + 1) ((chainStep t path p i c).2.1)).1.take k) =
          mergedCtx ((chainStep t path p i c).2.1)
            ((runChain t path ps (i + 1) ((chainStep t path p i c).2.1)).1.take k) := by
        show mergedCtx (mergeStep c (chainStep t path p i c).1) _ = _
        rw [← chainStep_ctx]
      rw [hm, Nat.add_assoc, Nat.add_comm 1 k]

theorem processorErrorStr_append (n p m : String) :
    ∃ s, processorErrorStr n p m = s ++ m :=
  ⟨(if n ≠ "" then "[" ++ n ++ "] " else "") ++
      (if p ≠ "" then "(" ++ p ++ ") " else ""),
    by simp [processorErrorStr, String.append_assoc]⟩

theorem processFile_eq (processors : List FileProcessor)
    (pfilter : Option (FileProcessor → Bool)) (timeout : ℚ) (path : String)
    (startTime : ℚ) (h : appliedChain processors pfilter path ≠ []) :
    processFile processors pfilter timeout path startTime =
      { filePath := path
        processorsRun := (appliedChain processors pfilter path).length
        successfulProcessors := some (((runChain timeout path
          (appliedChain processors pfilter path) 0
          (seedContext path startTime)).1.filter (·.success)).length)
        failedProcessors := some ((appliedChain processors pfilter path).length -
          ((runChain timeout path (appliedChain processors pfilter path) 0
            (seedContext path startTime)).1.filter (·.success)).length)
        results := (runChain timeout path (appliedChain processors pfilter path) 0
          (seedContext path startTime)).1
        success := (runChain timeout path (appliedChain processors pfilter path) 0
          (seedContext path startTime)).2.2
        message := "Processed through " ++
          toString (appliedChain processors pfilter path).length ++ " processors" } := by
  simp [processFile, h]

/-! ## Claims -/

/-- C1, counterexample. The claim states that in
`PluginWatcher.start_watching` with `process_existing` enabled the
filesystem event source is started before bulk processing of existing
files begins.  In the code (plugin_watcher.py 448-459) it is the other
way around: `process_existing_files` runs to completion before
`observer.start()` is called, so the observer-start step does not
precede the bulk step. -/
theorem C1_counterexample :
    ¬ ((startWatching true 1).indexOf WatchStep.observerStart <
        (startWatching true 1).indexOf (WatchStep.bulkProcess 1)) := by
  decide

/-- C1, amended: with `process_existing` enabled, bulk processing of
existing files runs to completion before the event source is started
(deliberately, per the code comment, so the watcher does not see files
imgc itself touches during the bulk pass); without it the event source
starts immediately. -/
theorem C1_amended (w : Nat) :
    (startWatching true w).indexOf (WatchStep.bulkProcess w) <
      (startWatching true w).indexOf WatchStep.observerStart
    ∧ startWatching false w = [WatchStep.observerStart, WatchStep.watchLoop] := by
  refine ⟨?_, rfl⟩
  rw [show startWatching true w = WatchStep.bulkProcess w ::
    [WatchStep.observerStart, WatchStep.watchLoop] from rfl]
  rw [List.indexOf_cons_self, List.indexOf_cons_ne _ (by simp), List.indexOf_cons_self]
  exact Nat.succ_pos 0

/-- C2, code evaluated at the failing input: a processor whose `process`
returns `None`.  The spec (and the dead guard at processor_chain.py 258)
say this is an unrecoverable processor error, but the coercion inside
`target` (line 233, `str(result) if result else "Processed"`) catches
the falsy `None` first and turns it into a successful result with
message `"Processed"`; the chain records a success and the run succeeds
overall. -/
theorem C2_none_return_behavior :
    (processFile [noneReturningProc] none 30 "a.jpg" 0).results.map
        (fun e => (e.success, e.result.message, e.result.error, e.result.timeout)) =
      [(true, "Processed", false, false)]
    ∧ (processFile [noneReturningProc] none 30 "a.jpg" 0).success = true
    ∧ (processFile [noneReturningProc] none 30 "a.jpg" 0).failedProcessors = some 0 :=
  ⟨rfl, rfl, rfl⟩

/-- C3: for every record returned by `process_file`, successful plus
failed processor counts equal the number of processors run, and the
overall success flag is true exactly when the failed count is zero.
(The zero-processor record omits both count keys; they are read as 0.) -/
theorem C3_counts (processors : List FileProcessor)
    (pfilter : Option (FileProcessor → Bool)) (timeout : ℚ) (path : String)
    (startTime : ℚ) :
    (processFile processors pfilter timeout path startTime).successfulProcessors.getD 0 +
        (processFile processors pfilter timeout path startTime).failedProcessors.getD 0 =
      (processFile processors pfilter timeout path startTime).processorsRun
    ∧ ((processFile processors pfilter timeout path startTime).success = true ↔
        (processFile processors pfilter timeout path startTime).failedProcessors.getD 0 = 0) := by
  by_cases h : appliedChain processors pfilter path = []
  · simp [processFile, h]
  · rw [processFile_eq processors pfilter timeout path startTime h]
    have hlen : ((runChain timeout path (appliedChain processors pfilter path) 0
        (seedContext path startTime)).1.filter (·.success)).length ≤
        (appliedChain processors pfilter path).length := by
      calc ((runChain timeout path (appliedChain processors pfilter path) 0
          (seedContext path startTime)).1.filter (·.success)).length
          ≤ (runChain timeout path (appliedChain processors pfilter path) 0
            (seedContext path startTime)).1.length := List.length_filter_le _ _
        _ = (appliedChain processors pfilter path).length := runChain_length _ _ _ _ _
    constructor
    · simpa using Nat.add_sub_cancel' hlen
    · simp only [Option.getD_some, Nat.sub_eq_zero_iff_le]
      rw [runChain_success_all, List.all_eq_true]
      constructor
      · intro hall
        have : ((runChain timeout path (appliedChain processors pfilter path) 0
            (seedContext path startTime)).1.filter (·.success)).length =
            (runChain timeout path (appliedChain processors pfilter path) 0
              (seedContext path startTime)).1.length :=
          List.filter_length_eq_length.mpr hall
        rw [runChain_length] at this
        exact this.ge
      · intro hle
        refine List.filter_length_eq_length.mp ?_
        have h2 : ((runChain timeout path (appliedChain processors pfilter path) 0
            (seedContext path startTime)).1.filter (·.success)).length =
            (appliedChain processors pfilter path).length :=
          le_antisymm hlen hle
        rw [h2, runChain_length]

/-- C4: when no applicable processors are found for a file (registry
lookup plus the optional filter), `process_file` returns a record with
zero processors run and overall success true. -/
theorem C4_no_applicable (processors : List FileProcessor)
    (pfilter : Option (FileProcessor → Bool)) (timeout : ℚ) (path : String)
    (startTime : ℚ) (h : appliedChain processors pfilter path = []) :
    (processFile processors pfilter timeout path startTime).processorsRun = 0
    ∧ (processFile processors pfilter timeout path startTime).success = true
    ∧ (processFile processors pfilter timeout path startTime).results = [] := by
  simp [processFile, h]

/-- Witness for C4 at a concrete input: an empty registry. -/
theorem C4_witness :
    appliedChain [] none "photo.jpg" = []
    ∧ (processFile [] none 30 "photo.jpg" 0).processorsRun = 0
    ∧ (processFile [] none 30 "photo.jpg" 0).success = true :=
  ⟨rfl, (C4_no_applicable [] none 30 "photo.jpg" 0 rfl).1,
    (C4_no_applicable [] none 30 "photo.jpg" 0 rfl).2.1⟩

/-- C5: when a processor raises during `process`, the run records that
processor's entry as a failure with the `error` marker and a message
carrying the raised error's message, the chain continues to the
remaining processors (one entry per applicable processor), and
`process_file` returns a record (the model's `processFile` is a total
function: every exception path inside the loop is caught at
processor_chain.py 157-173). -/
theorem C5_raise_isolated (processors : List FileProcessor)
    (pfilter : Option (FileProcessor → Bool)) (timeout : ℚ) (path : String)
    (startTime : ℚ) (k : Nat) (msg : String)
    (hk : k < (appliedChain processors pfilter path).length)
    (hraise : ∀ c, ((appliedChain processors pfilter path).get ⟨k, hk⟩).behavior path c =
      .raises msg) :
    (processFile processors pfilter timeout path startTime).results.length =
      (appliedChain processors pfilter path).length
    ∧ (processFile processors pfilter timeout path startTime).results[k]? = some
        { processor := ((appliedChain processors pfilter path).get ⟨k, hk⟩).name
          processorVersion := ((appliedChain processors pfilter path).get ⟨k, hk⟩).version
          result := { success := false
                      message := processorErrorStr
                        ((appliedChain processors pfilter path).get ⟨k, hk⟩).name path msg
                      error := true }
          success := false
          order := k + 1 }
    ∧ ∃ s, processorErrorStr
        ((appliedChain processors pfilter path).get ⟨k, hk⟩).name path msg = s ++ msg := by
  have hne : appliedChain processors pfilter path ≠ [] :=
    List.ne_nil_of_length_pos (Nat.lt_of_le_of_lt (Nat.zero_le k) hk)
  rw [processFile_eq processors pfilter timeout path startTime hne]
  refine ⟨runChain_length _ _ _ _ _, ?_, processorErrorStr_append _ _ _⟩
  rw [runChain_get timeout path (appliedChain processors pfilter path) 0
    (seedContext path startTime) k hk]
  simp only [List.get_eq_getElem] at hraise
  simp [chainStep, executeProcessor, hraise]

/-- Witness for C5 at a concrete input: a chain of a raising processor
followed by a succeeding one. -/
theorem C5_witness :
    (processFile [raisingProc, okProc] none 30 "x.t" 0).results.length = 2
    ∧ (processFile [raisingProc, okProc] none 30 "x.t" 0).results[0]? = some
        { processor := "Raiser", processorVersion := "1.0.0",
          result := { success := false, message := "[Raiser] (x.t) boom", error := true },
          success := false, order := 1 } := by
  have hk : 0 < (appliedChain [raisingProc, okProc] none "x.t").length := by decide
  obtain ⟨h1, h2, _⟩ := C5_raise_isolated [raisingProc, okProc] none 30 "x.t" 0 0 "boom"
    hk (fun _ => rfl)
  exact ⟨h1, h2⟩

/-- C6: (i) after discovery the registry's processor list is sorted by
ascending priority; (ii) the sort is stable — for each priority value
the processors carrying it keep their discovery order; (iii) in a chain
run, a strictly smaller priority implies a strictly earlier position
among the processors run; (iv) the recorded entries follow exactly that
processor order, so the lower-priority processor's entry appears first. -/
theorem C6_priority_order (discovered processors : List FileProcessor)
    (pfilter : Option (FileProcessor → Bool)) (timeout : ℚ) (path : String)
    (startTime : ℚ) :
    List.Sorted procLE (discoverPlugins discovered)
    ∧ (∀ pr : Int, (discoverPlugins discovered).filter (fun p => p.priority = pr) =
        discovered.filter (fun p => p.priority = pr))
    ∧ (∀ (i j : Nat) (hi : i < (appliedChain processors pfilter path).length)
          (hj : j < (appliedChain processors pfilter path).length),
        ((appliedChain processors pfilter path).get ⟨i, hi⟩).priority <
            ((appliedChain processors pfilter path).get ⟨j, hj⟩).priority → i < j)
    ∧ (processFile processors pfilter timeout path startTime).results.map (·.processor) =
        (appliedChain processors pfilter path).map (·.name) := by
  refine ⟨List.sorted_insertionSort procLE discovered, ?_, ?_, ?_⟩
  · intro pr
    have hmem : ∀ a ∈ discovered.filter (fun p => decide (p.priority = pr)),
        a.priority = pr := by
      intro a ha
      simpa using (List.mem_filter.mp ha).2
    have hpw : (discovered.filter (fun p => decide (p.priority = pr))).Pairwise procLE := by
      refine List.pairwise_of_forall_mem_list ?_
      intro a ha b hb
      show a.priority ≤ b.priority
      rw [hmem a ha, hmem b hb]
    have hsub : List.Sublist (discovered.filter (fun p => decide (p.priority = pr)))
        (discoverPlugins discovered) :=
      List.sublist_insertionSort hpw (List.filter_sublist discovered)
    have hsub2 : List.Sublist (discovered.filter (fun p => decide (p.priority = pr)))
        ((discoverPlugins discovered).filter (fun p => decide (p.priority = pr))) := by
      have h2 := hsub.filter (fun p => decide (p.priority = pr))
      rwa [List.filter_eq_self.mpr (fun a ha => by simpa using hmem a ha)] at h2
    have hlen : ((discoverPlugins discovered).filter
        (fun p => decide (p.priority = pr))).length =
        (discovered.filter (fun p => decide (p.priority = pr))).length :=
      ((List.perm_insertionSort procLE discovered).filter _).length_eq
    exact (hsub2.eq_of_length_le hlen.le).symm
  · have hs : List.Sorted procLE (appliedChain processors pfilter path) := by
      cases pfilter with
      | none => exact List.sorted_insertionSort procLE _
      | some f =>
          exact (List.sorted_insertionSort procLE _).sublist (List.filter_sublist _)
    intro i j hi hj hlt
    by_contra hij
    push_neg at hij
    rcases Nat.lt_or_ge j i with hji | hji
    · have := hs.rel_get_of_lt (show (⟨j, hj⟩ : Fin _) < ⟨i, hi⟩ from hji)
      exact absurd hlt (not_lt.mpr this)
    · have : i = j := Nat.le_antisymm hji hij
      subst this
      exact absurd hlt (lt_irrefl _)
  · by_cases h : appliedChain processors pfilter path = []
    · simp [processFile, h]
    · rw [processFile_eq processors pfilter timeout path startTime h]
      exact runChain_map_processor timeout path _ 0 _

/-- Witness for C6 at a concrete input: processors A (priority 10) and
B (priority 200), discovered in the order [B, A]. -/
theorem C6_witness :
    (processFile [procB, procA] none 30 "x.t" 0).results.map (·.processor) = ["A", "B"]
    ∧ (0 : Nat) < 1 := by
  constructor
  · exact (C6_priority_order [procB, procA] [procB, procA] none 30 "x.t" 0).2.2.2
  · exact (C6_priority_order [procB, procA] [procB, procA] none 30 "x.t" 0).2.2.1
      0 1 (by decide) (by decide) (by decide)

/-- Soundness of the stability polling loop: it can only answer "stable"
when two polls within the attempt bound observed sizes and the later one
repeated the value of the most recent earlier successful poll. -/
theorem stableLoop_sound (stop : Nat → Bool) (poll : Nat → Option Nat) (n : Nat) :
    ∀ (fuel : Nat) (prev : Option Nat) (attempt : Nat),
      fuel + attempt = n →
      (prev = none ∨ ∃ u v, u < attempt ∧ poll u = some v ∧ prev = some v) →
      stableLoop stop poll n fuel prev attempt = true →
      ∃ t₁ t₂ v, t₁ < t₂ ∧ t₂ < n ∧ poll t₁ = some v ∧ poll t₂ = some v
  | 0, prev, attempt, _, _, hres => by simp [stableLoop] at hres
  | fuel + 1, prev, attempt, hfa, hinv, hres => by
      by_cases hstop : stop attempt
      · simp [stableLoop, hstop] at hres
      · cases hpoll : poll attempt with
        | some current =>
            by_cases hprev : prev = some current
            · rcases hinv with h | ⟨u, v, hu, hpu, hp⟩
              · rw [h] at hprev; exact Option.noConfusion hprev
              · rw [hp] at hprev
                have hv : v = current := Option.some_injective _ hprev
                exact ⟨u, attempt, v, hu, by omega, hpu, by rw [hpoll, hv]⟩
            · have hres' : stableLoop stop poll n fuel (some current) (attempt + 1) = true := by
                simp only [stableLoop, hstop, if_false, Bool.false_eq_true, hpoll] at hres
                simpa [hprev] using hres
              exact stableLoop_sound stop poll n fuel (some current) (attempt + 1)
                (by omega) (Or.inr ⟨attempt, current, Nat.lt_succ_self _, hpoll, rfl⟩) hres'
        | none =>
            by_cases hlt : attempt < n - 1
            · have hres' : stableLoop stop poll n fuel prev (attempt + 1) = true := by
                simpa [stableLoop, hstop, hpoll, hlt] using hres
              refine stableLoop_sound stop poll n fuel prev (attempt + 1) (by omega) ?_ hres'
              rcases hinv with h | ⟨u, v, hu, hpu, hp⟩
              · exact Or.inl h
              · exact Or.inr ⟨u, v, Nat.lt_succ_of_lt hu, hpu, hp⟩
            · simp [stableLoop, hstop, hpoll, hlt] at hres

/-- C7, counterexample. The claim states that a size poll failing with
file-not-found makes the wait report not-stable.  In the code a failed
poll before the final attempt merely sleeps and retries
(plugin_watcher.py 212-217), so a file that is missing on the first poll
and then reports the same size twice is declared stable: with the
default `max_attempts = 10`, `stable_seconds = 2` and poll trace
`[missing, 5, 5, ...]` the wait returns stable. -/
theorem C7_counterexample :
    ¬ (∀ poll : Nat → Option Nat, poll 0 = none →
        waitForStableFile 2 (fun _ => false) poll 10 = false) := by
  intro hclaim
  have h := hclaim (fun t => if t = 0 then none else some 5) rfl
  have h2 : waitForStableFile 2 (fun _ => false)
      (fun t => if t = 0 then none else some 5) 10 = true := rfl
  rw [h] at h2
  exact Bool.noConfusion h2

/-- C7, amended: a failed size poll fails the wait only on the final
attempt — earlier failures are retried after a sleep — and the wait
(a total boolean function, so it never throws) reports stable only when
two polls within the attempt bound observed equal sizes; in particular a
file that stays missing, or that never repeats a size before the
bounded attempt count is exhausted, is reported not-stable. -/
theorem C7_amended (s : ℚ) (stop : Nat → Bool) (poll : Nat → Option Nat) (n : Nat)
    (hs : ¬ s ≤ 0) :
    (waitForStableFile s stop poll n = true →
      ∃ t₁ t₂ v, t₁ < t₂ ∧ t₂ < n ∧ poll t₁ = some v ∧ poll t₂ = some v)
    ∧ ((∀ t, t < n → poll t = none) → waitForStableFile s stop poll n = false) := by
  have hmain : waitForStableFile s stop poll n = true →
      ∃ t₁ t₂ v, t₁ < t₂ ∧ t₂ < n ∧ poll t₁ = some v ∧ poll t₂ = some v := by
    intro h
    rw [waitForStableFile, if_neg hs] at h
    exact stableLoop_sound stop poll n n none 0 (by omega) (Or.inl rfl) h
  refine ⟨hmain, ?_⟩
  intro hall
  cases hbool : waitForStableFile s stop poll n with
  | false => rfl
  | true =>
      obtain ⟨t₁, t₂, v, _, h2, _, h4⟩ := hmain hbool
      rw [hall t₂ h2] at h4
      exact Option.noConfusion h4

/-- Witness for C7 at a concrete input: a file that stays missing. -/
theorem C7_witness :
    ¬ (2 : ℚ) ≤ 0
    ∧ waitForStableFile 2 (fun _ => false) (fun _ => none) 10 = false :=
  ⟨by norm_num,
    (C7_amended 2 (fun _ => false) (fun _ => none) 10 (by norm_num)).2 (fun _ _ => rfl)⟩

theorem acceptedTimes_cons_true (t : ℚ) (tr : List (ℚ × Bool)) :
    acceptedTimes ((t, true) :: tr) = t :: acceptedTimes tr := by
  simp [acceptedTimes]

theorem acceptedTimes_cons_false (t : ℚ) (tr : List (ℚ × Bool)) :
    acceptedTimes ((t, false) :: tr) = acceptedTimes tr := by
  simp [acceptedTimes]

theorem runCooldown_cons (cooldown : ℚ) (key : String) (s s₂ : String → Option ℚ)
    (t : ℚ) (ts : List ℚ) (b : Bool)
    (hstep : shouldProcess cooldown s key t = (b, s₂)) :
    runCooldown cooldown key s (t :: ts) =
      ((t, b) :: (runCooldown cooldown key s₂ ts).1,
        (runCooldown cooldown key s₂ ts).2) := by
  simp [runCooldown, hstep]

/-- Invariant lemma for the cooldown filter: folding a chronologically
sorted list of positive event times through `_should_process` keeps the
list made of the stored timestamp (`last`) followed by the accepted
times sorted, with all accepted times at least `cooldown` apart, and
the stored timestamp equal to the most recent accepted time. -/
theorem runCooldown_spec (cooldown : ℚ) (key : String) :
    ∀ (times : List ℚ) (s : String → Option ℚ) (last : Option ℚ),
      s key = last →
      (last = none ∨ ∃ l, last = some l ∧ 0 < l ∧ ∀ t ∈ times, l ≤ t) →
      (∀ t ∈ times, 0 < t) →
      List.Sorted (· ≤ ·) times →
      List.Sorted (· ≤ ·)
        (last.toList ++ acceptedTimes (runCooldown cooldown key s times).1)
      ∧ List.Pairwise (fun a b => cooldown ≤ b - a)
          (last.toList ++ acceptedTimes (runCooldown cooldown key s times).1)
      ∧ (runCooldown cooldown key s times).2 key =
          (last.toList ++ acceptedTimes (runCooldown cooldown key s times).1).getLast?
  | [], s, last, hkey, hinv, _, _ => by
      rcases hinv with h | ⟨l, hl, _, _⟩
      · subst h; simp [runCooldown, acceptedTimes, hkey]
      · subst hl; simp [runCooldown, acceptedTimes, hkey]
  | t :: ts, s, last, hkey, hinv, hpos, hsort => by
      have hpos_t : 0 < t := hpos t (List.mem_cons_self t ts)
      have hpos_ts : ∀ u ∈ ts, 0 < u := fun u hu => hpos u (List.mem_cons_of_mem _ hu)
      have hsort_ts : List.Sorted (· ≤ ·) ts := hsort.of_cons
      have hle_ts : ∀ u ∈ ts, t ≤ u := List.rel_of_sorted_cons hsort
      have hup : (fun k => if k = key then some t else s k) key = some t := by simp
      rcases hinv with hnone | ⟨l, hl, hlpos, hlle⟩
      · subst hnone
        have hstep : shouldProcess cooldown s key t =
            (true, fun k => if k = key then some t else s k) := by
          simp [shouldProcess, hkey]
        obtain ⟨iha, ihb, ihc⟩ := runCooldown_spec cooldown key ts
          (fun k => if k = key then some t else s k) (some t) hup
          (Or.inr ⟨t, rfl, hpos_t, hle_ts⟩) hpos_ts hsort_ts
        rw [runCooldown_cons cooldown key s _ t ts true hstep]
        simp only [Option.toList_some, List.singleton_append] at iha ihb ihc
        simp only [Option.toList_none, List.nil_append, acceptedTimes_cons_true]
        exact ⟨iha, ihb, ihc⟩
      · subst hl
        by_cases hrej : l ≠ 0 ∧ t - l < cooldown
        · have hstep : shouldProcess cooldown s key t = (false, s) := by
            simp only [shouldProcess, hkey]
            rw [if_pos hrej]
          obtain ⟨iha, ihb, ihc⟩ := runCooldown_spec cooldown key ts s (some l) hkey
            (Or.inr ⟨l, rfl, hlpos, fun u hu => hlle u (List.mem_cons_of_mem _ hu)⟩)
            hpos_ts hsort_ts
          rw [runCooldown_cons cooldown key s s t ts false hstep]
          simpa only [acceptedTimes_cons_false] using ⟨iha, ihb, ihc⟩
        · have hge : cooldown ≤ t - l := by
            rw [Classical.not_and_iff_or_not_not] at hrej
            rcases hrej with h0 | hge
            · exact absurd (ne_of_gt hlpos) h0
            · exact not_lt.mp hge
          have hstep : shouldProcess cooldown s key t =
              (true, fun k => if k = key then some t else s k) := by
            simp only [shouldProcess, hkey]
            rw [if_neg hrej]
          obtain ⟨iha, ihb, ihc⟩ := runCooldown_spec cooldown key ts
            (fun k => if k = key then some t else s k) (some t) hup
            (Or.inr ⟨t, rfl, hpos_t, hle_ts⟩) hpos_ts hsort_ts
          rw [runCooldown_cons cooldown key s _ t ts true hstep]
          simp only [Option.toList_some, List.singleton_append] at iha ihb ihc
          simp only [Option.toList_some, List.singleton_append, acceptedTimes_cons_true]
          have hlt : l ≤ t := hlle t (List.mem_cons_self t ts)
          refine ⟨?_, ?_, ?_⟩
          · refine List.Pairwise.cons ?_ iha
            intro x hx
            rcases List.mem_cons.mp hx with hx | hx
            · exact hx ▸ hlt
            · exact le_trans hlt (List.rel_of_sorted_cons iha x hx)
          · refine List.Pairwise.cons ?_ ihb
            intro x hx
            rcases List.mem_cons.mp hx with hx | hx
            · exact hx ▸ hge
            · calc cooldown ≤ t - l := hge
                _ ≤ x - l := by
                  have := List.rel_of_sorted_cons iha x hx
                  linarith
          · rw [List.getLast?_cons_cons]
            exact ihc

/-- C8: starting from an empty last-processed map, over any
chronologically ordered sequence of positive event times on one resolved
path, (i) any two accepted events are at least `cooldown` apart, (ii)
the stored timestamp is always the time of the most recent accepted
event (so only accepted events update it), and (iii) a rejected event
leaves the map completely unchanged. -/
theorem C8_cooldown (cooldown : ℚ) (key : String) (times : List ℚ)
    (hpos : ∀ t ∈ times, 0 < t) (hsort : List.Sorted (· ≤ ·) times) :
    List.Pairwise (fun a b => cooldown ≤ b - a)
      (acceptedTimes (runCooldown cooldown key (fun _ => none) times).1)
    ∧ (runCooldown cooldown key (fun _ => none) times).2 key =
        (acceptedTimes (runCooldown cooldown key (fun _ => none) times).1).getLast?
    ∧ ∀ (s : String → Option ℚ) (t : ℚ), (shouldProcess cooldown s key t).1 = false →
        (shouldProcess cooldown s key t).2 = s := by
  obtain ⟨_, hb, hc⟩ := runCooldown_spec cooldown key times (fun _ => none) none rfl
    (Or.inl rfl) hpos hsort
  refine ⟨by simpa using hb, by simpa using hc, ?_⟩
  intro s t hfalse
  rcases hk : s key with _ | last
  · simp [shouldProcess, hk] at hfalse
  · by_cases hrej : last ≠ 0 ∧ t - last < cooldown
    · simp only [shouldProcess, hk]
      rw [if_pos hrej]
    · simp only [shouldProcess, hk] at hfalse
      rw [if_neg hrej] at hfalse
      exact Bool.noConfusion hfalse

/-- Witness for C8 at a concrete input: events at times 1, 2 and 10 with
a 5-second cooldown; the event at time 2 is dropped, the stored
timestamp ends at 10. -/
theorem C8_witness :
    List.Pairwise (fun a b => (5 : ℚ) ≤ b - a)
      (acceptedTimes (runCooldown 5 "p" (fun _ => none) [1, 2, 10]).1)
    ∧ (runCooldown 5 "p" (fun _ => none) [1, 2, 10]).2 "p" = some 10 := by
  have h := C8_cooldown 5 "p" [1, 2, 10]
    (by intro t ht; fin_cases ht <;> norm_num)
    (by simp [List.sorted_cons]; norm_num)
  refine ⟨h.1, ?_⟩
  rw [h.2.1]
  have htr : (runCooldown 5 "p" (fun _ => none) [1, 2, 10]).1 =
      [(1, true), (2, false), (10, true)] := by
    norm_num [runCooldown, shouldProcess]
  rw [htr]
  rfl

/-- C9: within one chain run, the context each processor is invoked on
(and of which it receives a private copy — `context.copy()` at
processor_chain.py 220, modelled by value passing) is exactly the seed
context merged, in execution order, with the result contexts of the
earlier successful entries; failed entries contribute nothing to the
merge (`mergeStep`). -/
theorem C9_context_isolation (processors : List FileProcessor)
    (pfilter : Option (FileProcessor → Bool)) (timeout : ℚ) (path : String)
    (startTime : ℚ) (k : Nat)
    (hk : k < (appliedChain processors pfilter path).length) :
    (processFile processors pfilter timeout path startTime).results[k]? =
      some (chainStep timeout path ((appliedChain processors pfilter path).get ⟨k, hk⟩) k
        (mergedCtx (seedContext path startTime)
          ((processFile processors pfilter timeout path startTime).results.take k))).1 := by
  have hne : appliedChain processors pfilter path ≠ [] :=
    List.ne_nil_of_length_pos (Nat.lt_of_le_of_lt (Nat.zero_le k) hk)
  rw [processFile_eq processors pfilter timeout path startTime hne]
  simpa using runChain_get timeout path (appliedChain processors pfilter path) 0
    (seedContext path startTime) k hk

/-- Witness for C9 at a concrete input: a context-contributing
processor, then a raising one, then a plain one; the third processor is
invoked on the seed merged with only the first (successful) entry's
context. -/
theorem C9_witness :
    (processFile [ctxProc, raisingProc, okProc] none 30 "x.t" 0).results[2]? =
      some (chainStep 30 "x.t" okProc 2
        (mergedCtx (seedContext "x.t" 0)
          ((processFile [ctxProc, raisingProc, okProc] none 30 "x.t" 0).results.take 2))).1
    ∧ mergedCtx (seedContext "x.t" 0)
        ((processFile [ctxProc, raisingProc, okProc] none 30 "x.t" 0).results.take 2) =
      ctxUpdate (seedContext "x.t" 0) [("a_ran", Val.vNum 1)] := by
  have hk : 2 < (appliedChain [ctxProc, raisingProc, okProc] none "x.t").length := by decide
  exact ⟨C9_context_isolation [ctxProc, raisingProc, okProc] none 30 "x.t" 0 2 hk, rfl⟩

/-- C10: `get_stats` and `get_all_processors` return detached copies:
writing through the returned reference does not change the object the
chain (resp. the registry) holds internally.  The hypotheses say the
internal references are live (already allocated) addresses. -/
theorem C10_detached_copies (h : Heap ChainStats) (g : Heap (List FileProcessor))
    (statsRef procsRef : Nat) (hs : statsRef < h.next) (hp : procsRef < g.next) :
    (∀ d : ChainStats,
      (((getStats h statsRef).2).writeAt (getStats h statsRef).1 d).store statsRef =
        h.store statsRef)
    ∧ ∀ l : List FileProcessor,
      (((getAllProcessors g procsRef).2).writeAt (getAllProcessors g procsRef).1 l).store
          procsRef = g.store procsRef := by
  constructor
  · intro d
    simp [getStats, Heap.copyOut, Heap.writeAt, Nat.ne_of_lt hs]
  · intro l
    simp [getAllProcessors, Heap.copyOut, Heap.writeAt, Nat.ne_of_lt hp]

/-- Witness for C10 at a concrete input: a one-object store whose object
holds the freshly initialised stats (resp. an empty processor list);
mutating the returned copy leaves the original contents intact. -/
theorem C10_witness :
    ((((getStats ⟨1, fun _ => {}⟩ 0).2).writeAt (getStats ⟨1, fun _ => {}⟩ 0).1
        { filesProcessed := 99 }).store 0).filesProcessed = 0
    ∧ (((getAllProcessors ⟨1, fun _ => []⟩ 0).2).writeAt
        (getAllProcessors ⟨1, fun _ => []⟩ 0).1 [okProc]).store 0 = [] := by
  have h := C10_detached_copies ⟨1, fun _ => {}⟩ ⟨1, fun _ => []⟩ 0 0
    (by decide) (by decide)
  refine ⟨?_, ?_⟩
  · rw [h.1 { filesProcessed := 99 }]
  · rw [h.2 [okProc]]

end Imgc
